import Mathlib

/-!
Shallow embedding of the `stats` library (PedroLucas63/statistics).

C++ `double` values are modelled as `ℚ` (all arithmetic in the code is
exact on the inputs the claims use), `int` as `ℤ`, thrown
`std::runtime_error` as `Except String`.  `std::sqrt` is modelled as
`Real.sqrt` (the one inherently non-executable operation).  C++ integer
division truncates toward zero, which is `Int.tdiv`.
-/

/-! ### StatisticalTools.hpp -/

/-- Recursion core of `factorial` on the non-negative magnitude:
`x <= 1 ? 1 : x * factorial(x - 1)`. -/
def factAux : Nat → Int
  | 0 => 1
  | 1 => 1
  | n + 2 => (n + 2) * factAux (n + 1)

/-- `stats::factorial(int x)`: throws for `x < 0`, otherwise
`x <= 1 ? 1 : x * factorial(x - 1)` (the recursive calls stay
non-negative, carried here on `x.toNat`). -/
def factorial (x : Int) : Except String Int :=
  if x < 0 then .error "Factorial is not defined for negative numbers"
  else .ok (factAux x.toNat)

/-- `stats::combination(int n, int x)`:
`factorial(n) / (factorial(n - x) * factorial(x))` with C++ `int`
division (truncation toward zero, `Int.tdiv`); any negative factorial
argument propagates the error. -/
def combination (n x : Int) : Except String Int := do
  let a ← factorial n
  let b ← factorial (n - x)
  let c ← factorial x
  return Int.tdiv a (b * c)

/-! ### Statistics.hpp (`Statistics<TYPE>`, instantiated at `TYPE = ℚ`) -/

/-- State of a `stats::Statistics` object: the stored `values` vector and
the `populationData` flag. -/
structure Statistics where
  values : List ℚ
  populationData : Bool
deriving DecidableEq

/-- `size()`: `values.size()` as a C++ `int`. -/
def Statistics.size (s : Statistics) : Int := s.values.length

/-- `calculateSum(function)`: loop accumulating `function(value)` over
the stored values, starting from `sum = 0`.  The C++ default argument is
the identity; callers of the default pass `id` here. -/
def Statistics.calculateSum (s : Statistics) (f : ℚ → ℚ) : ℚ :=
  s.values.foldl (fun sum v => sum + f v) 0

/-- `mean()`: `values.empty() ? 0 : calculateSum() / size()`. -/
def Statistics.mean (s : Statistics) : ℚ :=
  if s.values = [] then 0 else s.calculateSum id / (s.size : ℚ)

/-- `median()`: throws on empty data (`ensureNotEmpty`) before anything
else; otherwise sorts the stored values in place and returns the middle
element (odd size) or the average of the two middle elements (even
size).  The returned pair carries the result and the post-call object
state (the in-place sort is an observable side effect). -/
def Statistics.median (s : Statistics) : Except String ℚ × Statistics :=
  if s.values = [] then (.error "Values are empty", s)
  else
    let sorted := s.values.mergeSort (fun a b => decide (a ≤ b))
    let mid := sorted.length / 2
    let r : ℚ :=
      if sorted.length % 2 = 0 then (sorted.getD (mid - 1) 0 + sorted.getD mid 0) / 2
      else sorted.getD mid 0
    (.ok r, { s with values := sorted })

/-- Leftmost maximum under the comparator `a.second < b.second`, as
computed by `std::max_element` over the frequency map entries. -/
def maxBySecond : ℚ × Int → List (ℚ × Int) → ℚ × Int
  | best, [] => best
  | best, p :: rest => maxBySecond (if best.2 < p.2 then p else best) rest

/-- `mode()`: throws on empty data; otherwise builds the
`unordered_map` of frequencies (`++frequency[value]`) and returns the
key of the first maximal-frequency entry in iteration order.  The
iteration order of `std::unordered_map` is implementation-defined, so
the enumeration `keys` of the distinct stored values is a parameter of
the model; the frequency of key `k` is `values.count k`. -/
def Statistics.mode (s : Statistics) (keys : List ℚ) : Except String ℚ :=
  if s.values = [] then .error "Values are empty"
  else
    match keys.map (fun k => (k, (s.values.count k : Int))) with
    | [] => .error "Values are empty"
    | p :: rest => .ok (maxBySecond p rest).1

/-- `amplitude()`: throws on empty data; otherwise
`*maxValue - *minValue` over the stored values. -/
def Statistics.amplitude (s : Statistics) : Except String ℚ :=
  match s.values with
  | [] => .error "Values are empty"
  | v :: rest => .ok (rest.foldl max v - rest.foldl min v)

/-- `variance()`: `0` on empty data; otherwise the sum of squared
deviations from the mean, divided by `size()` for population data and
by `size() - 1` otherwise. -/
def Statistics.variance (s : Statistics) : ℚ :=
  if s.values = [] then 0
  else
    let meanOfValues := s.mean
    let sumOfValues := s.calculateSum (fun value => (value - meanOfValues) ^ 2)
    if s.populationData then sumOfValues / (s.size : ℚ)
    else sumOfValues / ((s.size : ℚ) - 1)

/-- `standardDeviation()`: `std::sqrt(variance())`. -/
noncomputable def Statistics.standardDeviation (s : Statistics) : ℝ :=
  Real.sqrt ((s.variance : ℚ) : ℝ)

/-- `coefficientOfVariation()`:
`mean() == 0 ? 0 : standardDeviation() / mean()`. -/
noncomputable def Statistics.coefficientOfVariation (s : Statistics) : ℝ :=
  if s.mean = 0 then 0 else s.standardDeviation / ((s.mean : ℚ) : ℝ)

/-! ### models/Binomial.hpp -/

/-- State of a `stats::Binomial` object. -/
structure Binomial where
  numberOfTrials : Int
  probabilityOfSuccess : ℚ
deriving DecidableEq

/-- `checkNumberOfTrials()`: throws when `numberOfTrials < 0`. -/
def Binomial.checkNumberOfTrials (b : Binomial) : Except String Unit :=
  if b.numberOfTrials < 0 then .error "Number of trials is negative" else .ok ()

/-- `checkProbabilityOfSuccess()`: throws when the probability is
outside `[0, 1]`. -/
def Binomial.checkProbabilityOfSuccess (b : Binomial) : Except String Unit :=
  if b.probabilityOfSuccess < 0 ∨ b.probabilityOfSuccess > 1 then
    .error "Probability of success is not between 0 and 1"
  else .ok ()

/-- `checkDistribution()`: `checkNumberOfTrials()` then
`checkProbabilityOfSuccess()`. -/
def Binomial.checkDistribution (b : Binomial) : Except String Unit := do
  b.checkNumberOfTrials
  b.checkProbabilityOfSuccess

/-- The `Binomial` constructor: stores both parameters, then runs
`checkDistribution()`; a thrown check means no object is produced. -/
def Binomial.make (numberOfTrials : Int) (probabilityOfSuccess : ℚ) :
    Except String Binomial :=
  let b : Binomial := ⟨numberOfTrials, probabilityOfSuccess⟩
  do b.checkDistribution; return b

/-- Domain constraint of a validly constructed `Binomial`. -/
def Binomial.Valid (b : Binomial) : Prop :=
  0 ≤ b.numberOfTrials ∧ 0 ≤ b.probabilityOfSuccess ∧ b.probabilityOfSuccess ≤ 1

instance (b : Binomial) : Decidable b.Valid := by
  unfold Binomial.Valid; infer_instance

/-- `Binomial::getProbability(int numberOfSuccesses)`: `0` outside
`[0, numberOfTrials]`; otherwise
`combination(trials, k) * pow(p, k) * pow(1 - p, trials - k)` (both
`pow` exponents are non-negative in this branch, hence `Nat` powers).
`combination` may throw, so the result is in `Except`. -/
def Binomial.getProbability (b : Binomial) (numberOfSuccesses : Int) :
    Except String ℚ :=
  if numberOfSuccesses < 0 ∨ numberOfSuccesses > b.numberOfTrials then .ok 0
  else do
    let combinations ← combination b.numberOfTrials numberOfSuccesses
    let probabilityOfSuccesses := b.probabilityOfSuccess ^ numberOfSuccesses.toNat
    let probabilityOfFails :=
      (1 - b.probabilityOfSuccess) ^ (b.numberOfTrials - numberOfSuccesses).toNat
    return (combinations : ℚ) * probabilityOfSuccesses * probabilityOfFails

/-- `setNumberOfTrials`: assigns the member first, then runs
`checkDistribution()`.  The pair is (thrown-or-ok, post-call object
state): when the check throws, the assignment has already happened. -/
def Binomial.setNumberOfTrials (b : Binomial) (numberOfTrials : Int) :
    Except String Unit × Binomial :=
  let b2 := { b with numberOfTrials := numberOfTrials }
  (b2.checkDistribution, b2)

/-- `setProbabilityOfSuccess`: assigns the member first, then runs
`checkDistribution()`. -/
def Binomial.setProbabilityOfSuccess (b : Binomial) (probabilityOfSuccess : ℚ) :
    Except String Unit × Binomial :=
  let b2 := { b with probabilityOfSuccess := probabilityOfSuccess }
  (b2.checkDistribution, b2)

/-- `Binomial::mean()`: `numberOfTrials * probabilityOfSuccess`. -/
def Binomial.mean (b : Binomial) : ℚ :=
  (b.numberOfTrials : ℚ) * b.probabilityOfSuccess

/-- `Binomial::variance()`: `trials * p * (1 - p)`. -/
def Binomial.variance (b : Binomial) : ℚ :=
  (b.numberOfTrials : ℚ) * b.probabilityOfSuccess * (1 - b.probabilityOfSuccess)

/-! ### models/Geometric.hpp -/

/-- State of a `stats::Geometric` object. -/
structure Geometric where
  probabilityOfSuccess : ℚ
deriving DecidableEq

/-- `Geometric::checkProbabilityOfSuccess()`: throws when the
probability is outside `[0, 1]` (note: `0` itself passes). -/
def Geometric.checkProbabilityOfSuccess (g : Geometric) : Except String Unit :=
  if g.probabilityOfSuccess < 0 ∨ g.probabilityOfSuccess > 1 then
    .error "Probability of success is not between 0 and 1"
  else .ok ()

/-- The `Geometric` constructor: stores the parameter, then runs
`checkProbabilityOfSuccess()`. -/
def Geometric.make (probabilityOfSuccess : ℚ) : Except String Geometric :=
  let g : Geometric := ⟨probabilityOfSuccess⟩
  do g.checkProbabilityOfSuccess; return g

/-- Domain constraint actually enforced by the code for `Geometric`. -/
def Geometric.Valid (g : Geometric) : Prop :=
  0 ≤ g.probabilityOfSuccess ∧ g.probabilityOfSuccess ≤ 1

instance (g : Geometric) : Decidable g.Valid := by
  unfold Geometric.Valid; infer_instance

/-- `Geometric::getProbability(int replicasMade)`: `0` for negative
input, otherwise `pow(1 - p, replicasMade - 1) * p`.  The exponent can
be `-1` (at `replicasMade = 0`), so this is a `zpow`; it is exact
except at `p = 1, replicasMade = 0`, where C++ yields `inf` and `ℚ`
yields `0` (no claim touches that point). -/
def Geometric.getProbability (g : Geometric) (replicasMade : Int) : ℚ :=
  if replicasMade < 0 then 0
  else (1 - g.probabilityOfSuccess) ^ (replicasMade - 1) * g.probabilityOfSuccess

/-- `Geometric::setProbabilityOfSuccess`: assigns the member first,
then runs the check; the pair is (thrown-or-ok, post-call state). -/
def Geometric.setProbabilityOfSuccess (g : Geometric) (probabilityOfSuccess : ℚ) :
    Except String Unit × Geometric :=
  let g2 : Geometric := { g with probabilityOfSuccess := probabilityOfSuccess }
  (g2.checkProbabilityOfSuccess, g2)

/-- `Geometric::mean()`: `1 / probabilityOfSuccess`. -/
def Geometric.mean (g : Geometric) : ℚ := 1 / g.probabilityOfSuccess

/-- `Geometric::variance()`: `(1 - p) / pow(p, 2)`. -/
def Geometric.variance (g : Geometric) : ℚ :=
  (1 - g.probabilityOfSuccess) / g.probabilityOfSuccess ^ 2

/-! ### models/DiscreteUniform.hpp -/

/-- State of a `stats::DiscreteUniform` object. -/
structure DiscreteUniform where
  firstValue : Int
  lastValue : Int
deriving DecidableEq

/-- `checkInterval()`: throws when `firstValue > lastValue`. -/
def DiscreteUniform.checkInterval (d : DiscreteUniform) : Except String Unit :=
  if d.firstValue > d.lastValue then
    .error "First value is greater than last value"
  else .ok ()

/-- The `DiscreteUniform` constructor: stores both bounds, then runs
`checkInterval()`. -/
def DiscreteUniform.make (firstValue lastValue : Int) :
    Except String DiscreteUniform :=
  let d : DiscreteUniform := ⟨firstValue, lastValue⟩
  do d.checkInterval; return d

/-- Domain constraint of a validly constructed `DiscreteUniform`. -/
def DiscreteUniform.Valid (d : DiscreteUniform) : Prop :=
  d.firstValue ≤ d.lastValue

instance (d : DiscreteUniform) : Decidable d.Valid := by
  unfold DiscreteUniform.Valid; infer_instance

/-- `DiscreteUniform::getProbability(int value)`: `0` outside
`[firstValue, lastValue]`, else `1.0 / (lastValue - firstValue + 1)`
(the denominator is computed in `int`, then converted to `double`). -/
def DiscreteUniform.getProbability (d : DiscreteUniform) (value : Int) : ℚ :=
  if value < d.firstValue ∨ value > d.lastValue then 0
  else 1 / ((d.lastValue - d.firstValue + 1 : Int) : ℚ)

/-- `setInterval`: assigns both members first, then runs
`checkInterval()`; the pair is (thrown-or-ok, post-call state). -/
def DiscreteUniform.setInterval (d : DiscreteUniform) (firstValue lastValue : Int) :
    Except String Unit × DiscreteUniform :=
  let d2 : DiscreteUniform := { d with firstValue := firstValue, lastValue := lastValue }
  (d2.checkInterval, d2)

/-- `DiscreteUniform::mean()`: `(firstValue + lastValue) / 2` in C++
`int` arithmetic (truncation toward zero), then converted to `double`. -/
def DiscreteUniform.mean (d : DiscreteUniform) : ℚ :=
  ((Int.tdiv (d.firstValue + d.lastValue) 2 : Int) : ℚ)

/-- `DiscreteUniform::variance()`:
`(lastValue - firstValue) * (lastValue - firstValue + 2) / 12` in C++
`int` arithmetic (truncation toward zero), then converted to `double`. -/
def DiscreteUniform.variance (d : DiscreteUniform) : ℚ :=
  ((Int.tdiv ((d.lastValue - d.firstValue) * (d.lastValue - d.firstValue + 2)) 12 : Int) : ℚ)

/-! ### Helper lemmas -/

/-- The factorial recursion computes `Nat.factorial`. -/
lemma factAux_eq : ∀ m : Nat, factAux m = (Nat.factorial m : Int)
  | 0 => rfl
  | 1 => rfl
  | n + 2 => by
      rw [factAux, factAux_eq (n + 1),
        show (n + 2).factorial = (n + 2) * (n + 1).factorial from Nat.factorial_succ (n + 1)]
      push_cast
      ring

/-- On non-negative input `factorial` succeeds with `Nat.factorial`. -/
lemma factorial_ok {x : Int} (h : 0 ≤ x) :
    factorial x = .ok (Nat.factorial x.toNat : Int) := by
  rw [factorial, if_neg (by omega), factAux_eq]

/-- For `0 ≤ k ≤ n` the integer-division formula of `combination` is
exactly the binomial coefficient. -/
lemma combination_eq_choose {n k : Int} (h0 : 0 ≤ k) (h1 : k ≤ n) :
    combination n k = .ok ((Nat.choose n.toNat k.toNat : ℕ) : Int) := by
  have hn : 0 ≤ n := le_trans h0 h1
  have hnk : (0 : Int) ≤ n - k := by omega
  rw [combination, factorial_ok hn, factorial_ok hnk, factorial_ok h0]
  show Except.ok _ = Except.ok _
  congr 1
  have hsub : (n - k).toNat = n.toNat - k.toNat := by omega
  have hle : k.toNat ≤ n.toNat := by omega
  have hnatmul : (n.toNat - k.toNat).factorial * k.toNat.factorial
      * Nat.choose n.toNat k.toNat = n.toNat.factorial := by
    rw [← Nat.choose_mul_factorial_mul_factorial hle]
    ring
  have hcast := congrArg (fun m : ℕ => (m : ℤ)) hnatmul
  push_cast at hcast
  rw [hsub, ← hcast]
  exact Int.mul_tdiv_cancel_left _ (by positivity)

/-- In-support branch of `Binomial::getProbability`, with `combination`
replaced by the binomial coefficient. -/
lemma getProbability_in_range {b : Binomial} {k : Int} (h0 : 0 ≤ k)
    (h1 : k ≤ b.numberOfTrials) :
    b.getProbability k
      = .ok ((Nat.choose b.numberOfTrials.toNat k.toNat : ℚ)
          * b.probabilityOfSuccess ^ k.toNat
          * (1 - b.probabilityOfSuccess) ^ (b.numberOfTrials - k).toNat) := by
  rw [Binomial.getProbability, if_neg (by omega), combination_eq_choose h0 h1]
  show Except.ok _ = Except.ok _
  congr 1

/-- A single term of the binomial expansion of `(p + (1-p))^N` is at
most the whole sum, which is `1`. -/
lemma binomial_term_le_one {p : ℚ} (hp0 : 0 ≤ p) (hp1 : p ≤ 1) {N K : Nat}
    (h : K ≤ N) :
    (Nat.choose N K : ℚ) * p ^ K * (1 - p) ^ (N - K) ≤ 1 := by
  have h1p : (0 : ℚ) ≤ 1 - p := by linarith
  have hsum : ((1 : ℚ)) = ∑ m ∈ Finset.range (N + 1),
      p ^ m * (1 - p) ^ (N - m) * (Nat.choose N m : ℚ) := by
    have hpow := add_pow p (1 - p) N
    rw [show p + (1 - p) = (1 : ℚ) by ring, one_pow] at hpow
    exact hpow
  have hmem : K ∈ Finset.range (N + 1) := Finset.mem_range.mpr (by omega)
  have hle := Finset.single_le_sum
      (f := fun m => p ^ m * (1 - p) ^ (N - m) * (Nat.choose N m : ℚ))
      (fun i _ => by positivity) hmem
  calc (Nat.choose N K : ℚ) * p ^ K * (1 - p) ^ (N - K)
      = p ^ K * (1 - p) ^ (N - K) * (Nat.choose N K : ℚ) := by ring
    _ ≤ ∑ m ∈ Finset.range (N + 1),
          p ^ m * (1 - p) ^ (N - m) * (Nat.choose N m : ℚ) := hle
    _ = 1 := hsum.symm

/-- Folding `sum + f v` over a list from `init` is `init` plus the sum
of the image. -/
lemma foldl_add_eq (f : ℚ → ℚ) : ∀ (l : List ℚ) (init : ℚ),
    l.foldl (fun sum v => sum + f v) init = init + (l.map f).sum
  | [], init => by simp
  | v :: rest, init => by
      rw [List.foldl_cons, foldl_add_eq f rest (init + f v), List.map_cons,
        List.sum_cons]
      ring

/-- `calculateSum` is the sum of the image of the stored values. -/
lemma Statistics.calculateSum_eq (s : Statistics) (f : ℚ → ℚ) :
    s.calculateSum f = (s.values.map f).sum := by
  rw [Statistics.calculateSum, foldl_add_eq, zero_add]

/-- Closed form of `variance` on a non-empty sample: sum of squared
deviations over `N` (population) or `N - 1` (sample). -/
lemma variance_eq (v : List ℚ) (b : Bool) (h : v ≠ []) :
    Statistics.variance ⟨v, b⟩
      = (v.map (fun x => (x - Statistics.mean ⟨v, b⟩) ^ 2)).sum
        / (if b then (v.length : ℚ) else (v.length : ℚ) - 1) := by
  rw [Statistics.variance]
  simp only [Statistics.calculateSum_eq, Statistics.size]
  rw [if_neg h]
  cases b <;> simp

/-- The element chosen by `maxBySecond` is the seed or one of the list
elements. -/
lemma maxBySecond_mem : ∀ (l : List (ℚ × Int)) (best : ℚ × Int),
    maxBySecond best l ∈ best :: l
  | [], best => by simp [maxBySecond]
  | p :: rest, best => by
      show maxBySecond (if best.2 < p.2 then p else best) rest ∈ best :: p :: rest
      by_cases hc : best.2 < p.2
      · rw [if_pos hc]
        have h := maxBySecond_mem rest p
        simp only [List.mem_cons] at h ⊢
        tauto
      · rw [if_neg hc]
        have h := maxBySecond_mem rest best
        simp only [List.mem_cons] at h ⊢
        tauto

/-- The element chosen by `maxBySecond` has maximal second component
among the seed and the list elements. -/
lemma maxBySecond_ge : ∀ (l : List (ℚ × Int)) (best q : ℚ × Int),
    q ∈ best :: l → q.2 ≤ (maxBySecond best l).2
  | [], best, q, hq => by
      simp at hq
      rw [hq]
      exact le_refl best.2
  | p :: rest, best, q, hq => by
      show q.2 ≤ (maxBySecond (if best.2 < p.2 then p else best) rest).2
      have hres := maxBySecond_ge rest (if best.2 < p.2 then p else best)
      have hseed : (if best.2 < p.2 then p else best).2
          ≤ (maxBySecond (if best.2 < p.2 then p else best) rest).2 :=
        hres _ (List.mem_cons_self _ _)
      rcases List.mem_cons.mp hq with h1 | h1
      · have hb : q.2 ≤ (if best.2 < p.2 then p else best).2 := by
          rw [h1]
          by_cases hc : best.2 < p.2
          · rw [if_pos hc]
            exact le_of_lt hc
          · rw [if_neg hc]
        exact le_trans hb hseed
      · rcases List.mem_cons.mp h1 with h2 | h2
        · have hb : q.2 ≤ (if best.2 < p.2 then p else best).2 := by
            rw [h2]
            by_cases hc : best.2 < p.2
            · rw [if_pos hc]
            · rw [if_neg hc]
              omega
          exact le_trans hb hseed
        · exact hres q (List.mem_cons_of_mem _ h2)

/-- Evaluation of `mean` on the demo sample `{1,2,3,4,5}`. -/
lemma mean_demo : Statistics.mean ⟨[1, 2, 3, 4, 5], true⟩ = 3 := by
  rw [Statistics.mean, if_neg (by simp)]
  norm_num [Statistics.calculateSum, Statistics.size, List.foldl]

/-- Evaluation of `variance` on the demo sample `{1,2,3,4,5}`
(population data). -/
lemma variance_demo : Statistics.variance ⟨[1, 2, 3, 4, 5], true⟩ = 2 := by
  rw [Statistics.variance, if_neg (by simp)]
  simp only [mean_demo]
  norm_num [Statistics.calculateSum, Statistics.size, List.foldl]

/-- Evaluation of `mean` on `{0,2}` (either flag). -/
lemma mean_02 (b : Bool) : Statistics.mean ⟨[0, 2], b⟩ = 1 := by
  rw [Statistics.mean, if_neg (by simp)]
  norm_num [Statistics.calculateSum, Statistics.size, List.foldl]

/-- Evaluation of `variance` on `{0,2}` as population data. -/
lemma variance_02_pop : Statistics.variance ⟨[0, 2], true⟩ = 1 := by
  rw [Statistics.variance, if_neg (by simp)]
  simp only [mean_02]
  norm_num [Statistics.calculateSum, Statistics.size, List.foldl]

/-- Evaluation of `variance` on `{0,2}` as sample data. -/
lemma variance_02_samp : Statistics.variance ⟨[0, 2], false⟩ = 2 := by
  rw [Statistics.variance, if_neg (by simp)]
  simp only [mean_02]
  norm_num [Statistics.calculateSum, Statistics.size, List.foldl]

/-- Bind of a successful `Except` computation. -/
lemma exceptBind_ok {α β : Type} (a : α) (f : α → Except String β) :
    (Except.ok a >>= f) = f a := rfl

/-- Bind of a failed `Except` computation. -/
lemma exceptBind_error {α β : Type} (e : String) (f : α → Except String β) :
    ((Except.error e : Except String α) >>= f) = Except.error e := rfl

/-! ### Claims -/

/-- C1, counterexample.  From the valid state `Binomial(5, 1/2)`, the
call `setNumberOfTrials(-1)` throws `InvalidArgument` but does NOT
leave the previously stored parameters unchanged: the object now holds
`numberOfTrials = -1` (an invalid state), and a subsequent query
(`mean`) observes it (a negative mean, impossible in a valid state). -/
theorem C1_counterexample :
    Binomial.Valid ⟨5, 1/2⟩
  ∧ Binomial.setNumberOfTrials ⟨5, 1/2⟩ (-1)
      = (.error "Number of trials is negative", ⟨-1, 1/2⟩)
  ∧ (Binomial.setNumberOfTrials ⟨5, 1/2⟩ (-1)).2.numberOfTrials ≠ 5
  ∧ ¬ Binomial.Valid (Binomial.setNumberOfTrials ⟨5, 1/2⟩ (-1)).2
  ∧ (Binomial.setNumberOfTrials ⟨5, 1/2⟩ (-1)).2.mean < 0 := by
  refine ⟨⟨by norm_num, by norm_num, by norm_num⟩, ?_, ?_, ?_, ?_⟩
  · rfl
  · decide
  · intro hval
    have h := hval.1
    norm_num [Binomial.setNumberOfTrials] at h
  · show Binomial.mean ⟨-1, 1/2⟩ < 0
    norm_num [Binomial.mean]

/-- C1, amended.  When a mutating setter is called with a parameter
violating the domain constraint, the call raises `InvalidArgument`, but
the invalid parameter has already been staged into the object: the
post-call state holds the new (invalid) value, not the previous one,
so subsequent queries observe the invalid state. -/
theorem C1_setters_stage_invalid_value :
    (∀ (b : Binomial) (n : Int), n < 0 →
        b.setNumberOfTrials n
          = (.error "Number of trials is negative", { b with numberOfTrials := n }))
  ∧ (∀ (b : Binomial) (p : ℚ), 0 ≤ b.numberOfTrials → p < 0 ∨ 1 < p →
        b.setProbabilityOfSuccess p
          = (.error "Probability of success is not between 0 and 1",
              { b with probabilityOfSuccess := p }))
  ∧ (∀ (g : Geometric) (p : ℚ), p < 0 ∨ 1 < p →
        g.setProbabilityOfSuccess p
          = (.error "Probability of success is not between 0 and 1", ⟨p⟩))
  ∧ (∀ (d : DiscreteUniform) (lo hi : Int), hi < lo →
        d.setInterval lo hi
          = (.error "First value is greater than last value", ⟨lo, hi⟩)) := by
  refine ⟨?_, ?_, ?_, ?_⟩
  · intro b n h
    rw [Binomial.setNumberOfTrials]
    simp only [Binomial.checkDistribution, Binomial.checkNumberOfTrials, if_pos h,
      exceptBind_error]
  · intro b p hn hp
    rw [Binomial.setProbabilityOfSuccess]
    simp only [Binomial.checkDistribution, Binomial.checkNumberOfTrials,
      Binomial.checkProbabilityOfSuccess]
    rw [if_neg (by simp only [not_lt]; exact hn), exceptBind_ok,
      if_pos (by simpa [gt_iff_lt] using hp)]
  · intro g p hp
    rw [Geometric.setProbabilityOfSuccess]
    simp only [Geometric.checkProbabilityOfSuccess]
    rw [if_pos (by simpa [gt_iff_lt] using hp)]
  · intro d lo hi h
    rw [DiscreteUniform.setInterval]
    simp only [DiscreteUniform.checkInterval]
    rw [if_pos (by simpa [gt_iff_lt] using h)]

/-- C1, witness: the amended theorem applied at concrete invalid setter
calls from valid states. -/
theorem C1_witness :
    Binomial.setNumberOfTrials ⟨5, 1/2⟩ (-1)
      = (.error "Number of trials is negative", ⟨-1, 1/2⟩)
  ∧ Binomial.setProbabilityOfSuccess ⟨5, 1/2⟩ 2
      = (.error "Probability of success is not between 0 and 1", ⟨5, 2⟩)
  ∧ Geometric.setProbabilityOfSuccess ⟨1/2⟩ 2
      = (.error "Probability of success is not between 0 and 1", ⟨2⟩)
  ∧ DiscreteUniform.setInterval ⟨1, 6⟩ 6 1
      = (.error "First value is greater than last value", ⟨6, 1⟩) :=
  ⟨C1_setters_stage_invalid_value.1 ⟨5, 1/2⟩ (-1) (by norm_num),
   C1_setters_stage_invalid_value.2.1 ⟨5, 1/2⟩ 2 (by norm_num) (Or.inr (by norm_num)),
   C1_setters_stage_invalid_value.2.2.1 ⟨1/2⟩ 2 (Or.inr (by norm_num)),
   C1_setters_stage_invalid_value.2.2.2 ⟨1, 6⟩ 6 1 (by norm_num)⟩

/-- C4, counterexample.  `Geometric(0)` does not fail: the check only
rejects values outside `[0, 1]`, so `successProbability = 0` — which is
outside the claimed domain `(0, 1]` — is accepted at construction. -/
theorem C4_counterexample :
    Geometric.make 0 = .ok ⟨0⟩ ∧ (0 : ℚ) ∉ Set.Ioc (0 : ℚ) 1 := by
  constructor
  · rw [Geometric.make]
    simp only [Geometric.checkProbabilityOfSuccess]
    rw [if_neg (by norm_num)]
    rfl
  · simp

/-- C4, amended.  The domain actually enforced for `Geometric` (at
construction and via the setter) is `[0, 1]`: values with `p < 0` or
`p > 1` raise `InvalidArgument`, while every `p` in `[0, 1]` — in
particular `p = 0` — is accepted. -/
theorem C4_geometric_domain :
    ∀ p : ℚ,
      ((0 ≤ p ∧ p ≤ 1) →
        Geometric.make p = .ok ⟨p⟩
        ∧ ∀ g : Geometric, g.setProbabilityOfSuccess p = (.ok (), ⟨p⟩))
    ∧ ((p < 0 ∨ 1 < p) →
        Geometric.make p = .error "Probability of success is not between 0 and 1"
        ∧ ∀ g : Geometric, g.setProbabilityOfSuccess p
            = (.error "Probability of success is not between 0 and 1", ⟨p⟩)) := by
  intro p
  constructor
  · intro h
    have hc : ¬ (p < 0 ∨ p > 1) := by
      simp only [not_or, not_lt, gt_iff_lt]
      exact ⟨h.1, h.2⟩
    constructor
    · rw [Geometric.make]
      simp only [Geometric.checkProbabilityOfSuccess]
      rw [if_neg hc]
      rfl
    · intro g
      rw [Geometric.setProbabilityOfSuccess]
      simp only [Geometric.checkProbabilityOfSuccess]
      rw [if_neg hc]
  · intro h
    have hc : p < 0 ∨ p > 1 := by simpa [gt_iff_lt] using h
    constructor
    · rw [Geometric.make]
      simp only [Geometric.checkProbabilityOfSuccess]
      rw [if_pos hc]
      rfl
    · intro g
      rw [Geometric.setProbabilityOfSuccess]
      simp only [Geometric.checkProbabilityOfSuccess]
      rw [if_pos hc]

/-- C4, witness: the amended theorem applied at `p = 0` (accepted) and
`p = 2` (rejected). -/
theorem C4_witness :
    Geometric.make 0 = .ok ⟨0⟩
  ∧ Geometric.make 2 = .error "Probability of success is not between 0 and 1" :=
  ⟨((C4_geometric_domain 0).1 (by norm_num)).1,
   ((C4_geometric_domain 2).2 (Or.inr (by norm_num))).1⟩

/-- C2, counterexample.  `Geometric(0.8)` is validly constructed (0.8
lies in the domain however it is read), yet `probabilityAt(0)` is
`(1 - 0.8)^(0-1) * 0.8 = 0.8 / 0.2 = 4`, outside `[0, 1]`. -/
theorem C2_counterexample :
    Geometric.Valid ⟨4/5⟩
  ∧ Geometric.getProbability ⟨4/5⟩ 0 = 4
  ∧ ¬ Geometric.getProbability ⟨4/5⟩ 0 ≤ 1 := by
  have h : Geometric.getProbability ⟨4/5⟩ 0 = 4 := by
    rw [Geometric.getProbability, if_neg (by norm_num)]
    norm_num
  refine ⟨⟨by norm_num, by norm_num⟩, h, ?_⟩
  rw [h]
  norm_num

/-- C2, amended.  For validly constructed distributions `probabilityAt`
stays in `[0, 1]` for Binomial (all inputs) and DiscreteUniform (all
inputs), and for Geometric at every input except `0`: at input `0` the
formula evaluates `(1-p)^(-1) * p = p / (1-p)`, which exceeds 1 for
`p > 1/2` (see the counterexample). -/
theorem C2_probability_in_unit_interval :
    (∀ b : Binomial, b.Valid → ∀ (k : Int) (q : ℚ),
        b.getProbability k = .ok q → 0 ≤ q ∧ q ≤ 1)
  ∧ (∀ d : DiscreteUniform, d.Valid → ∀ value : Int,
        0 ≤ d.getProbability value ∧ d.getProbability value ≤ 1)
  ∧ (∀ g : Geometric, g.Valid → ∀ n : Int, n ≠ 0 →
        0 ≤ g.getProbability n ∧ g.getProbability n ≤ 1) := by
  refine ⟨?_, ?_, ?_⟩
  · intro b hv k q hq
    by_cases hc : k < 0 ∨ k > b.numberOfTrials
    · rw [Binomial.getProbability, if_pos hc] at hq
      injection hq with h
      rw [← h]
      norm_num
    · push_neg at hc
      rw [getProbability_in_range hc.1 hc.2] at hq
      injection hq with h
      rw [← h]
      have hp0 := hv.2.1
      have hp1 := hv.2.2
      have h1p : (0 : ℚ) ≤ 1 - b.probabilityOfSuccess := by linarith
      constructor
      · exact mul_nonneg
          (mul_nonneg (Nat.cast_nonneg _) (pow_nonneg hp0 _)) (pow_nonneg h1p _)
      · have hsub : (b.numberOfTrials - k).toNat
            = b.numberOfTrials.toNat - k.toNat := by omega
        rw [hsub]
        exact binomial_term_le_one hp0 hp1 (by omega)
  · intro d hv value
    rw [DiscreteUniform.getProbability]
    by_cases hc : value < d.firstValue ∨ value > d.lastValue
    · rw [if_pos hc]
      norm_num
    · rw [if_neg hc]
      have hint : (1 : Int) ≤ d.lastValue - d.firstValue + 1 := by
        have := hv
        rw [DiscreteUniform.Valid] at this
        omega
      have h1 : (1 : ℚ) ≤ ((d.lastValue - d.firstValue + 1 : Int) : ℚ) := by
        exact_mod_cast hint
      constructor
      · apply div_nonneg (by norm_num)
        linarith
      · rw [div_le_one (by linarith)]
        exact h1
  · intro g hv n hn
    rw [Geometric.getProbability]
    by_cases hc : n < 0
    · rw [if_pos hc]
      norm_num
    · rw [if_neg hc]
      obtain ⟨m, hm⟩ : ∃ m : ℕ, n - 1 = (m : ℤ) := ⟨(n - 1).toNat, by omega⟩
      rw [hm, zpow_natCast]
      have h1p : (0 : ℚ) ≤ 1 - g.probabilityOfSuccess := by linarith [hv.2]
      constructor
      · exact mul_nonneg (pow_nonneg h1p m) hv.1
      · exact mul_le_one₀ (pow_le_one₀ h1p (by linarith [hv.1])) hv.1 hv.2

/-- C2, witness: the amended theorem applied at `Binomial(2, 1/2)` with
`k = 1`, `DiscreteUniform(1, 6)` at `3`, and `Geometric(1/2)` at `3`. -/
theorem C2_witness :
    Binomial.getProbability ⟨2, 1/2⟩ 1 = .ok (1/2)
  ∧ (0 ≤ (1/2 : ℚ) ∧ (1/2 : ℚ) ≤ 1)
  ∧ (0 ≤ DiscreteUniform.getProbability ⟨1, 6⟩ 3
      ∧ DiscreteUniform.getProbability ⟨1, 6⟩ 3 ≤ 1)
  ∧ (0 ≤ Geometric.getProbability ⟨1/2⟩ 3
      ∧ Geometric.getProbability ⟨1/2⟩ 3 ≤ 1) := by
  have heq : Binomial.getProbability ⟨2, 1/2⟩ 1 = .ok (1/2) := by
    rw [getProbability_in_range (by norm_num) (by norm_num)]
    show Except.ok _ = Except.ok _
    congr 1
    norm_num [show (2 : Int).toNat = 2 from rfl]
  exact ⟨heq,
    C2_probability_in_unit_interval.1 ⟨2, 1/2⟩
      ⟨by norm_num, by norm_num, by norm_num⟩ 1 (1/2) heq,
    C2_probability_in_unit_interval.2.1 ⟨1, 6⟩ (by norm_num [DiscreteUniform.Valid]) 3,
    C2_probability_in_unit_interval.2.2 ⟨1/2⟩ ⟨by norm_num, by norm_num⟩ 3 (by norm_num)⟩

/-- C3, counterexample.  For the sample `{0, 2}` the population
variance is 1 but the sample variance is 2, so `standardDeviation`
(square root of the variance) differs with the flag — contradicting the
claim that it is flag-independent. -/
theorem C3_counterexample :
    Statistics.standardDeviation ⟨[0, 2], true⟩
      ≠ Statistics.standardDeviation ⟨[0, 2], false⟩ := by
  rw [Statistics.standardDeviation, Statistics.standardDeviation,
    variance_02_pop, variance_02_samp,
    show ((1 : ℚ) : ℝ) = 1 by norm_num, show ((2 : ℚ) : ℝ) = 2 by norm_num,
    Real.sqrt_one]
  rw [Ne, eq_comm, Real.sqrt_eq_one]
  norm_num

/-- C3, amended.  `sum`, `mean`, `median`, `mode` and `amplitude` are
flag-independent, and the flag selects variance's denominator (`N` for
population, `N - 1` for sample); but `standardDeviation` and
`coefficientOfVariation` are derived from `variance`, so they inherit
the flag dependence (see the counterexample). -/
theorem C3_flag_dependence :
    (∀ (v : List ℚ) (f : ℚ → ℚ) (b1 b2 : Bool),
        Statistics.calculateSum ⟨v, b1⟩ f = Statistics.calculateSum ⟨v, b2⟩ f)
  ∧ (∀ (v : List ℚ) (b1 b2 : Bool),
        Statistics.mean ⟨v, b1⟩ = Statistics.mean ⟨v, b2⟩)
  ∧ (∀ (v : List ℚ) (b1 b2 : Bool),
        (Statistics.median ⟨v, b1⟩).1 = (Statistics.median ⟨v, b2⟩).1
        ∧ (Statistics.median ⟨v, b1⟩).2.values = (Statistics.median ⟨v, b2⟩).2.values)
  ∧ (∀ (v keys : List ℚ) (b1 b2 : Bool),
        Statistics.mode ⟨v, b1⟩ keys = Statistics.mode ⟨v, b2⟩ keys)
  ∧ (∀ (v : List ℚ) (b1 b2 : Bool),
        Statistics.amplitude ⟨v, b1⟩ = Statistics.amplitude ⟨v, b2⟩)
  ∧ (∀ v : List ℚ, v ≠ [] →
        Statistics.variance ⟨v, true⟩
          = (v.map (fun x => (x - Statistics.mean ⟨v, true⟩) ^ 2)).sum
            / (v.length : ℚ)
        ∧ Statistics.variance ⟨v, false⟩
          = (v.map (fun x => (x - Statistics.mean ⟨v, false⟩) ^ 2)).sum
            / ((v.length : ℚ) - 1)) := by
  refine ⟨?_, ?_, ?_, ?_, ?_, ?_⟩
  · intro v f b1 b2
    rfl
  · intro v b1 b2
    rfl
  · intro v b1 b2
    by_cases h : v = [] <;> simp [Statistics.median, h]
  · intro v keys b1 b2
    rfl
  · intro v b1 b2
    rfl
  · intro v h
    constructor
    · rw [variance_eq v true h]
      norm_num
    · rw [variance_eq v false h]
      norm_num

/-- C3, witness: the amended theorem applied at the sample `{0, 2}`. -/
theorem C3_witness :
    Statistics.mean ⟨[0, 2], true⟩ = Statistics.mean ⟨[0, 2], false⟩
  ∧ Statistics.variance ⟨[0, 2], true⟩
      = (([0, 2] : List ℚ).map (fun x => (x - Statistics.mean ⟨[0, 2], true⟩) ^ 2)).sum
        / (([0, 2] : List ℚ).length : ℚ)
  ∧ Statistics.variance ⟨[0, 2], false⟩
      = (([0, 2] : List ℚ).map (fun x => (x - Statistics.mean ⟨[0, 2], false⟩) ^ 2)).sum
        / ((([0, 2] : List ℚ).length : ℚ) - 1) :=
  ⟨C3_flag_dependence.2.1 [0, 2] true false,
   (C3_flag_dependence.2.2.2.2.2 [0, 2] (by simp)).1,
   (C3_flag_dependence.2.2.2.2.2 [0, 2] (by simp)).2⟩

/-- C5, confirmed.  On an empty sample `sum`, `mean`, `variance`,
`standardDeviation` and `coefficientOfVariation` all return 0 without
error, while `median`, `mode` and `amplitude` raise `EmptyData`; the
failed `median` call checks emptiness first, so the stored values (the
whole object state) are unchanged — no sort happens on failure. -/
theorem C5_empty_sample (b : Bool) (f : ℚ → ℚ) (keys : List ℚ) :
    Statistics.calculateSum ⟨[], b⟩ f = 0
  ∧ Statistics.mean ⟨[], b⟩ = 0
  ∧ Statistics.variance ⟨[], b⟩ = 0
  ∧ Statistics.standardDeviation ⟨[], b⟩ = 0
  ∧ Statistics.coefficientOfVariation ⟨[], b⟩ = 0
  ∧ Statistics.median ⟨[], b⟩ = (.error "Values are empty", ⟨[], b⟩)
  ∧ Statistics.mode ⟨[], b⟩ keys = .error "Values are empty"
  ∧ Statistics.amplitude ⟨[], b⟩ = .error "Values are empty" := by
  have hvar : Statistics.variance ⟨[], b⟩ = 0 := rfl
  have hmean : Statistics.mean ⟨[], b⟩ = 0 := rfl
  have hsd : Statistics.standardDeviation ⟨[], b⟩ = 0 := by
    rw [Statistics.standardDeviation, hvar]
    norm_num
  refine ⟨rfl, hmean, hvar, hsd, ?_, rfl, rfl, rfl⟩
  rw [Statistics.coefficientOfVariation, if_pos hmean]

/-- C6, confirmed.  On a non-empty sample `variance` is the sum of
squared deviations from the mean divided by the count (population) or
count − 1 (sample); for the population sample `{1,2,3,4,5}`:
`mean = 3`, `variance = 2`, `standardDeviation = sqrt 2`. -/
theorem C6_variance_formula :
    (∀ (v : List ℚ) (b : Bool), v ≠ [] →
        Statistics.variance ⟨v, b⟩
          = (v.map (fun x => (x - Statistics.mean ⟨v, b⟩) ^ 2)).sum
            / (if b then (v.length : ℚ) else (v.length : ℚ) - 1))
  ∧ Statistics.mean ⟨[1, 2, 3, 4, 5], true⟩ = 3
  ∧ Statistics.variance ⟨[1, 2, 3, 4, 5], true⟩ = 2
  ∧ Statistics.standardDeviation ⟨[1, 2, 3, 4, 5], true⟩ = Real.sqrt 2 := by
  refine ⟨variance_eq, mean_demo, variance_demo, ?_⟩
  rw [Statistics.standardDeviation, variance_demo]
  norm_num

/-- C6, witness: the general variance formula applied to the demo
sample. -/
theorem C6_witness :
    Statistics.variance ⟨[1, 2, 3, 4, 5], true⟩
      = (([1, 2, 3, 4, 5] : List ℚ).map
            (fun x => (x - Statistics.mean ⟨[1, 2, 3, 4, 5], true⟩) ^ 2)).sum
        / (if true then (([1, 2, 3, 4, 5] : List ℚ).length : ℚ)
            else (([1, 2, 3, 4, 5] : List ℚ).length : ℚ) - 1) :=
  C6_variance_formula.1 [1, 2, 3, 4, 5] true (by simp)

/-- C7, confirmed.  `Binomial.probabilityAt` returns 0 outside
`[0, trials]` without error, and `C(trials, k) * p^k * (1-p)^(trials-k)`
inside; `Binomial(10, 1/2)` gives `252/1024` at 5 and `0` at `-1` and
`11`. -/
theorem C7_binomial_pmf :
    (∀ b : Binomial, b.Valid → ∀ k : Int,
        ((k < 0 ∨ k > b.numberOfTrials) → b.getProbability k = .ok 0)
        ∧ (0 ≤ k → k ≤ b.numberOfTrials →
            b.getProbability k
              = .ok ((Nat.choose b.numberOfTrials.toNat k.toNat : ℚ)
                  * b.probabilityOfSuccess ^ k.toNat
                  * (1 - b.probabilityOfSuccess) ^ (b.numberOfTrials - k).toNat)))
  ∧ Binomial.getProbability ⟨10, 1/2⟩ 5 = .ok (252/1024)
  ∧ Binomial.getProbability ⟨10, 1/2⟩ (-1) = .ok 0
  ∧ Binomial.getProbability ⟨10, 1/2⟩ 11 = .ok 0 := by
  refine ⟨?_, ?_, ?_, ?_⟩
  · intro b hv k
    constructor
    · intro hc
      rw [Binomial.getProbability, if_pos hc]
    · intro h0 h1
      exact getProbability_in_range h0 h1
  · rw [getProbability_in_range (by norm_num) (by norm_num)]
    show Except.ok _ = Except.ok _
    congr 1
    norm_num [show (10 : Int).toNat = 10 from rfl, show (5 : Int).toNat = 5 from rfl,
      show ((10 : Int) - 5).toNat = 5 from rfl, show Nat.choose 10 5 = 252 from rfl]
  · rw [Binomial.getProbability, if_pos (Or.inl (by norm_num))]
  · rw [Binomial.getProbability, if_pos (Or.inr (by norm_num))]

/-- C7, witness: the in-support branch applied at `Binomial(10, 1/2)`,
`k = 5`, and the out-of-support branch at `k = 11`. -/
theorem C7_witness :
    Binomial.getProbability ⟨10, 1/2⟩ 5
      = .ok ((Nat.choose (10 : Int).toNat (5 : Int).toNat : ℚ) * (1/2) ^ (5 : Int).toNat
          * (1 - 1/2) ^ ((10 : Int) - 5).toNat)
  ∧ Binomial.getProbability ⟨10, 1/2⟩ 11 = .ok 0 :=
  ⟨(C7_binomial_pmf.1 ⟨10, 1/2⟩ ⟨by norm_num, by norm_num, by norm_num⟩ 5).2
      (by norm_num) (by norm_num),
   (C7_binomial_pmf.1 ⟨10, 1/2⟩ ⟨by norm_num, by norm_num, by norm_num⟩ 11).1
      (Or.inr (by norm_num))⟩

/-- C8, confirmed.  `DiscreteUniform.mean` is `(low + high) / 2` and
`variance` is `(high-low)(high-low+2) / 12`, both with C++ integer
division truncating toward zero; in particular
`DiscreteUniform(1,2).mean() = 1`, not `3/2`, and
`DiscreteUniform(1,6).variance() = 2`, not `35/12`. -/
theorem C8_uniform_truncating_moments :
    (∀ d : DiscreteUniform, d.Valid →
        d.mean = ((Int.tdiv (d.firstValue + d.lastValue) 2 : Int) : ℚ)
        ∧ d.variance
          = ((Int.tdiv ((d.lastValue - d.firstValue)
              * (d.lastValue - d.firstValue + 2)) 12 : Int) : ℚ))
  ∧ DiscreteUniform.mean ⟨1, 2⟩ = 1
  ∧ DiscreteUniform.mean ⟨1, 2⟩ ≠ ((1 : ℚ) + 2) / 2
  ∧ DiscreteUniform.variance ⟨1, 6⟩ = 2
  ∧ DiscreteUniform.variance ⟨1, 6⟩ ≠ 35 / 12 := by
  refine ⟨fun d hv => ⟨rfl, rfl⟩, rfl, ?_, rfl, ?_⟩
  · rw [show DiscreteUniform.mean ⟨1, 2⟩ = 1 from rfl]
    norm_num
  · rw [show DiscreteUniform.variance ⟨1, 6⟩ = 2 from rfl]
    norm_num

/-- C8, witness: the truncating formulas applied at
`DiscreteUniform(1, 2)`. -/
theorem C8_witness :
    DiscreteUniform.mean ⟨1, 2⟩ = ((Int.tdiv ((1 : Int) + 2) 2 : Int) : ℚ)
  ∧ DiscreteUniform.variance ⟨1, 2⟩
      = ((Int.tdiv (((2 : Int) - 1) * ((2 : Int) - 1 + 2)) 12 : Int) : ℚ) :=
  C8_uniform_truncating_moments.1 ⟨1, 2⟩ (by norm_num [DiscreteUniform.Valid])

/-- C9, confirmed.  For a `Binomial` with non-negative trial count,
`getProbability` never raises: out-of-support inputs short-circuit to
`ok 0` before `combination` is called, and in-support inputs make all
three factorial arguments non-negative, so the error branch of
`factorial` is unreachable and the call returns `ok`. -/
theorem C9_binomial_total (b : Binomial) (h : 0 ≤ b.numberOfTrials) (k : Int) :
    ∃ q : ℚ, b.getProbability k = .ok q := by
  by_cases hc : k < 0 ∨ k > b.numberOfTrials
  · exact ⟨0, by rw [Binomial.getProbability, if_pos hc]⟩
  · push_neg at hc
    exact ⟨_, getProbability_in_range hc.1 hc.2⟩

/-- C9, witness: totality applied at `Binomial(10, 1/2)` with `k = 7`. -/
theorem C9_witness : ∃ q : ℚ, Binomial.getProbability ⟨10, 1/2⟩ 7 = .ok q :=
  C9_binomial_total ⟨10, 1/2⟩ (by norm_num) 7

/-- C10, confirmed.  On a non-empty sample, whatever iteration order
the frequency map exposes (any enumeration `keys` of exactly the values
present in the sample), `mode` returns a value occurring in the sample
whose occurrence count is at least that of every other value. -/
theorem C10_mode_maximizer (v : List ℚ) (b : Bool) (keys : List ℚ)
    (hv : v ≠ []) (hmem : ∀ x : ℚ, x ∈ keys ↔ x ∈ v) :
    ∃ m : ℚ, Statistics.mode ⟨v, b⟩ keys = .ok m ∧ m ∈ v
      ∧ ∀ y ∈ v, v.count y ≤ v.count m := by
  obtain ⟨x, hx⟩ := List.exists_mem_of_ne_nil v hv
  have hxk : x ∈ keys := (hmem x).mpr hx
  cases keys with
  | nil => simp at hxk
  | cons k0 krest =>
      have hmode : Statistics.mode ⟨v, b⟩ (k0 :: krest)
          = .ok (maxBySecond (k0, (v.count k0 : Int))
              (krest.map (fun k => (k, (v.count k : Int))))).1 := by
        rw [Statistics.mode, if_neg hv]
        rfl
      obtain ⟨key, hkey, hkeyr⟩ := List.mem_map.mp
        (show maxBySecond (k0, (v.count k0 : Int))
            (krest.map (fun k => (k, (v.count k : Int))))
          ∈ (k0 :: krest).map (fun k => (k, (v.count k : Int))) from by
            rw [List.map_cons]
            exact maxBySecond_mem _ _)
      refine ⟨_, hmode, ?_, ?_⟩
      · rw [← hkeyr]
        exact (hmem key).mp hkey
      · intro y hy
        have hyk : y ∈ k0 :: krest := (hmem y).mpr hy
        have hymem : (y, (v.count y : Int))
            ∈ (k0, (v.count k0 : Int)) :: krest.map (fun k => (k, (v.count k : Int))) := by
          rw [show (k0, (v.count k0 : Int)) :: krest.map (fun k => (k, (v.count k : Int)))
              = (k0 :: krest).map (fun k => (k, (v.count k : Int))) from rfl]
          exact List.mem_map_of_mem _ hyk
        have hge := maxBySecond_ge _ _ _ hymem
        rw [← hkeyr] at hge ⊢
        have hge2 : ((v.count y : Int)) ≤ ((v.count key : Int)) := hge
        show v.count y ≤ v.count key
        exact_mod_cast hge2

/-- C10, witness: the mode theorem applied to the sample `{1,1,2,3}`
with the enumeration `[3, 2, 1]` of its distinct values. -/
theorem C10_witness :
    ∃ m : ℚ, Statistics.mode ⟨[1, 1, 2, 3], true⟩ [3, 2, 1] = .ok m
      ∧ m ∈ ([1, 1, 2, 3] : List ℚ)
      ∧ ∀ y ∈ ([1, 1, 2, 3] : List ℚ),
          ([1, 1, 2, 3] : List ℚ).count y ≤ ([1, 1, 2, 3] : List ℚ).count m :=
  C10_mode_maximizer [1, 1, 2, 3] true [3, 2, 1] (by simp)
    (by
      intro x
      simp only [List.mem_cons, List.not_mem_nil, or_false]
      tauto)
